import Mathlib

/-!
Shallow embedding of the catalog cache and query engine of `jlc_has_it`
(files `core/unit_utils.py`, `core/models.py`, `core/search.py`,
`core/database.py`), together with theorems settling the specification
claims about it.

Modelling conventions:
* Python `float` is modelled by `ℚ` (exact arithmetic; the code's
  relative-tolerance comparisons exist precisely to absorb rounding, so
  comparison results on the inputs of interest coincide).
* Python `int` is `ℤ` (unbounded, as in Python).
* SQL `NULL`-able columns are `Option`-typed; a Python function that can
  raise is modelled as returning `Option`/`Except`.
* JSON text columns are modelled by an inductive `Json` tree: the raw
  text either parses to such a tree or the row is malformed at the
  structural level (see `Component.from_db_row`).
-/

namespace JlcHasIt

/-- A JSON value, as produced by `json.loads` / consumed by SQLite's
`json_extract`.  Object keys are taken to be unique (true of the catalog
data; both SQLite and Python then agree on the lookup). -/
inductive Json where
  | null : Json
  | bool (b : Bool) : Json
  | num (q : ℚ) : Json
  | str (s : String) : Json
  | arr (elems : List Json) : Json
  | obj (fields : List (String × Json)) : Json

namespace Json

/-- Field lookup in a JSON object: `json_extract(x, '$.k')` one step, and
also Python `dict` access after `json.loads`. -/
def getField : Json → String → Option Json
  | obj fields, k => fields.lookup k
  | _, _ => none

/-- First element of a JSON array: the `$[0]` step of `json_extract`. -/
def getIdx0 : Json → Option Json
  | arr (x :: _) => some x
  | _ => none

end Json

/-! ## Unit Normalizer (`core/unit_utils.py`) -/

/-- Characters the regex class `[\d.]` accepts. -/
def isNumChar (c : Char) : Bool := c.isDigit || c = '.'

/-- Characters the regex class `[a-zA-Zμ/±%]` accepts. -/
def isUnitChar (c : Char) : Bool := c.isAlpha || c = 'μ' || c = '/' || c = '±' || c = '%'

/-- Python `str.strip()` restricted to the whitespace that can actually
occur in the catalog strings (space, tab, newline, carriage return). -/
def pyStrip (cs : List Char) : List Char :=
  ((cs.dropWhile Char.isWhitespace).reverse.dropWhile Char.isWhitespace).reverse

/-- Numeric value of a list of decimal digit characters. -/
def digitsVal (cs : List Char) : ℕ :=
  cs.foldl (fun a c => 10 * a + (c.toNat - 48)) 0

/-- Python `float()` on a string matching `[\d.]+` (no sign): succeeds
iff there is at least one digit and at most one dot, as `float` does on
such strings. -/
def pyFloatOfRun (run : List Char) : Option ℚ :=
  if (run.filter Char.isDigit).length ≥ 1 ∧ (run.filter (· = '.')).length ≤ 1 then
    let intPart := run.takeWhile (· ≠ '.')
    let fracPart := (run.dropWhile (· ≠ '.')).drop 1
    some ((digitsVal intPart : ℚ) + (digitsVal fracPart : ℚ) / (10 : ℚ) ^ fracPart.length)
  else
    none

/-- `parse_value`: match `^([+-]?[\d.]+)\s*([a-zA-Zμ/±%]*)?$` against the
stripped input and convert the numeric group with `float()`; `(none, none)`
when the regex fails to match or `float()` raises.  (The numeric group is
greedy and the unit class contains no digits or dots, so maximal munch is
exact.) -/
def parse_value (value_str : String) : Option ℚ × Option String :=
  let cs := pyStrip value_str.data
  let (negative, rest) :=
    match cs with
    | '+' :: r => (false, r)
    | '-' :: r => (true, r)
    | r => (false, r)
  let run := rest.takeWhile isNumChar
  let after := rest.dropWhile isNumChar
  let unitChars := after.dropWhile Char.isWhitespace
  if run.length ≥ 1 ∧ unitChars.all isUnitChar then
    match pyFloatOfRun run with
    | some q => (some (if negative then -q else q), some (String.mk unitChars))
    | none => (none, none)
  else
    (none, none)

/-- `CAPACITANCE_UNITS` (base Farad). -/
def CAPACITANCE_UNITS : List (String × ℚ) :=
  [("f", 1), ("mf", 1/1000), ("μf", 1/1000000), ("uf", 1/1000000),
   ("nf", 1/10^9), ("pf", 1/10^12)]

/-- `RESISTANCE_UNITS` (base Ohm). -/
def RESISTANCE_UNITS : List (String × ℚ) :=
  [("ω", 1), ("ohm", 1), ("ohms", 1),
   ("kω", 10^3), ("kohm", 10^3), ("kohms", 10^3),
   ("mω", 10^6), ("mohm", 10^6), ("mohms", 10^6),
   ("gω", 10^9), ("gohm", 10^9), ("gohms", 10^9)]

/-- `INDUCTANCE_UNITS` (base Henry). -/
def INDUCTANCE_UNITS : List (String × ℚ) :=
  [("h", 1), ("mh", 1/1000), ("μh", 1/1000000), ("uh", 1/1000000), ("nh", 1/10^9)]

/-- `VOLTAGE_UNITS` (base Volt). -/
def VOLTAGE_UNITS : List (String × ℚ) :=
  [("v", 1), ("mv", 1/1000), ("kv", 10^3)]

/-- `CURRENT_UNITS` (base Ampere). -/
def CURRENT_UNITS : List (String × ℚ) :=
  [("a", 1), ("ma", 1/1000), ("μa", 1/1000000), ("ua", 1/1000000), ("na", 1/10^9)]

/-- `FREQUENCY_UNITS` (base Hertz). -/
def FREQUENCY_UNITS : List (String × ℚ) :=
  [("hz", 1), ("khz", 10^3), ("mhz", 10^6), ("ghz", 10^9)]

/-- `UNIT_CATEGORIES`, in the source's (Python dict insertion) order. -/
def UNIT_CATEGORIES : List (String × List (String × ℚ)) :=
  [("capacitance", CAPACITANCE_UNITS), ("resistance", RESISTANCE_UNITS),
   ("inductance", INDUCTANCE_UNITS), ("voltage", VOLTAGE_UNITS),
   ("current", CURRENT_UNITS), ("frequency", FREQUENCY_UNITS)]

/-- Python `str.lower()` on the characters that occur in unit strings:
ASCII letters, plus the uppercase Greek omega `Ω` (U+03A9), which Python
lowers to `ω` (U+03C9); everything else is unchanged. -/
def pyLowerChar (c : Char) : Char :=
  if 'A' ≤ c ∧ c ≤ 'Z' then Char.ofNat (c.toNat + 32)
  else if c = 'Ω' then 'ω'
  else c

/-- The key computation `unit.lower().replace(" ", "").replace("Ω", "ohm")`.
After `lower()` no uppercase `Ω` remains, so the final `replace` is kept
for faithfulness but is the identity. -/
def normalizeUnitKey (unit : String) : String :=
  let lowered := (unit.data.map pyLowerChar).filter (· ≠ ' ')
  String.mk (lowered.flatMap (fun c => if c = 'Ω' then ['o', 'h', 'm'] else [c]))

/-- Scan of `UNIT_CATEGORIES` for a normalized unit key, returning the
category name and the multiplier of the first table containing it. -/
def findUnit (key : String) : Option (String × ℚ) :=
  UNIT_CATEGORIES.foldr
    (fun cat acc =>
      match cat.2.lookup key with
      | some m => some (cat.1, m)
      | none => acc)
    none

/-- `normalize_value`: identity on a falsy (empty) unit, otherwise a table
lookup scaling to the base unit; `none` for an unknown unit. -/
def normalize_value (value : ℚ) (unit : String) : Option ℚ :=
  if unit = "" then some value
  else
    match findUnit (normalizeUnitKey unit) with
    | some (_, multiplier) => some (value * multiplier)
    | none => none

/-- `get_unit_category`: the category of a unit string, `none` if unknown. -/
def get_unit_category (unit : String) : Option String :=
  (findUnit (normalizeUnitKey unit)).map (·.1)

/-- Truthiness of the optional unit returned by `parse_value`
(`None` and the empty string are falsy in Python). -/
def unitTruthy : Option String → Bool
  | some s => s ≠ ""
  | none => false

/-- `compare_values`: the cross-unit tolerant three-way comparison. -/
def compare_values (value1_str value2_str : String) (tolerance : ℚ := 1/10^10) :
    Option ℤ :=
  let p1 := parse_value value1_str
  let p2 := parse_value value2_str
  match p1.1, p2.1 with
  | none, _ => none
  | _, none => none
  | some val1, some val2 =>
    let unit1 := p1.2
    let unit2 := p2.2
    let cat1 := if unitTruthy unit1 then get_unit_category (unit1.getD "") else none
    let cat2 := if unitTruthy unit2 then get_unit_category (unit2.getD "") else none
    if ¬ unitTruthy unit1 ∧ ¬ unitTruthy unit2 then
      some (if val1 < val2 then -1 else if val1 > val2 then 1 else 0)
    else if cat1 ≠ cat2 then
      none
    else
      let norm1 := if unitTruthy unit1 then normalize_value val1 (unit1.getD "") else some val1
      let norm2 := if unitTruthy unit2 then normalize_value val2 (unit2.getD "") else some val2
      match norm1, norm2 with
      | some n1, some n2 =>
        let diff := |n1 - n2|
        let maxVal := max |n1| |n2|
        let relativeDiff := if maxVal > 0 then diff / maxVal else diff
        some (if relativeDiff < tolerance then 0 else if n1 < n2 then -1 else 1)
      | _, _ => none

/-! ## External id translation (`core/models.py` 71-76, `core/search.py` 195-199) -/

/-- The decimal digit character for `d < 10` (as produced by Python `str`). -/
def digitChar (d : ℕ) : Char := Char.ofNat (48 + d)

/-- Canonical decimal digits of a natural number, most significant first:
the characters Python `str(n)` produces for a nonnegative `int`.
Structurally fueled so that it evaluates in the kernel; the fuel `n + 1`
always suffices. -/
def natDigitsAux : ℕ → ℕ → List Char
  | 0, _ => []
  | fuel + 1, n =>
    if n < 10 then [digitChar n]
    else natDigitsAux fuel (n / 10) ++ [digitChar (n % 10)]

/-- Python `str(n)` for a nonnegative `int`. -/
def pyStrOfNat (n : ℕ) : String := String.mk (natDigitsAux (n + 1) n)

/-- Python `str(v)` for an `int`. -/
def pyStrOfInt (v : ℤ) : String :=
  if v < 0 then "-" ++ pyStrOfNat v.natAbs else pyStrOfNat v.toNat

/-- The external id rendering of `Component.from_db_row`
(`lcsc_str = f"C{lcsc_value}"` on an integer key). -/
def lcscExternalId (lcsc_value : ℤ) : String := "C" ++ pyStrOfInt lcsc_value

/-- Python `int(s)` on the strings involved here: optional surrounding
whitespace, an optional sign, then decimal digits (the catalog ids use
neither underscore grouping nor non-ASCII digits); `none` models
`ValueError`. -/
def pyIntOfString (s : String) : Option ℤ :=
  let cs := pyStrip s.data
  let negative := cs.take 1 = ['-']
  let digits := if cs.take 1 = ['+'] ∨ cs.take 1 = ['-'] then cs.drop 1 else cs
  if digits.length ≥ 1 ∧ digits.all Char.isDigit then
    some (if negative then -(digitsVal digits : ℤ) else (digitsVal digits : ℤ))
  else
    none

/-- The external-to-internal translation of `search_by_lcsc`: strip a
leading `C` if present and apply `int()`; `none` models the propagated
`ValueError`. -/
def internalKey (lcsc_id : String) : Option ℤ :=
  if lcsc_id.data.take 1 = ['C'] then pyIntOfString (String.mk (lcsc_id.data.drop 1))
  else pyIntOfString lcsc_id

/-! ## Cache acquisition and freshness (`core/database.py` 53-181) -/

/-- The snapshot-file state the `DatabaseManager` owns: the modification
time of `cache.sqlite3` (seconds, as a real number), `none` when the
file does not exist. -/
structure CacheState where
  snapshotMtime : Option ℚ

/-- `MAX_AGE_DAYS` class attribute. -/
def MAX_AGE_DAYS : ℤ := 1

/-- A `timedelta(days=d)` as seconds. -/
def timedeltaOfDays (d : ℤ) : ℚ := 86400 * d

/-- `check_database_age`: `datetime.now() - mtime`, `none` when the
snapshot is missing. -/
def check_database_age (now : ℚ) (s : CacheState) : Option ℚ :=
  s.snapshotMtime.map (fun m => now - m)

/-- `needs_update`: missing snapshot, or age strictly above the max age. -/
def needs_update (now : ℚ) (s : CacheState) : Bool :=
  match check_database_age now s with
  | none => true
  | some age => decide (age > timedeltaOfDays MAX_AGE_DAYS)

/-- Externally visible actions `download_database` performs. -/
inductive Effect where
  | netGet (url : String)
  | extract

/-- `BASE_URL` class attribute. -/
def BASE_URL : String := "https://yaqwsx.github.io/jlcparts/data"

/-- The part file name `cache.zNN` with the two-digit zero-padded
number from the f-string `cache.z{part_num:02d}`. -/
def partName (k : ℕ) : String :=
  "cache.z" ++ (if k < 10 then "0" ++ pyStrOfNat k else pyStrOfNat k)

/-- URL of a numbered part. -/
def partUrl (k : ℕ) : String := BASE_URL ++ "/" ++ partName k

/-- URL of the final distinguished part. -/
def zipUrl : String := BASE_URL ++ "/cache.zip"

/-- The `while part_num <= 99` download loop: request each numbered part
in order, stopping after the first 404 (`remote k = false`).  Fueled by
the remaining iteration count; fuel `99` from `partNum = 1` covers the
whole loop. -/
def downloadLoop (remote : ℕ → Bool) : ℕ → ℕ → List Effect
  | _, 0 => []
  | partNum, fuel + 1 =>
    if partNum ≤ 99 then
      Effect.netGet (partUrl partNum) ::
        (if remote partNum then downloadLoop remote (partNum + 1) fuel else [])
    else []

/-- `download_database` on the success path: the numbered-part loop, the
final `cache.zip` request, and the extraction that rewrites the snapshot,
whose modification time becomes the current time.  `remote k` tells
whether numbered part `k` exists (a 404 answer otherwise). -/
def download_database (remote : ℕ → Bool) (now : ℚ) : CacheState × List Effect :=
  (⟨some now⟩, downloadLoop remote 1 99 ++ [Effect.netGet zipUrl, Effect.extract])

/-- `update_if_needed`: download when stale or missing, otherwise do
nothing; returns whether an update happened, the resulting snapshot
state, and the effects issued. -/
def update_if_needed (remote : ℕ → Bool) (now : ℚ) (s : CacheState) :
    Bool × CacheState × List Effect :=
  if needs_update now s then
    (true, (download_database remote now).1, (download_database remote now).2)
  else
    (false, s, [])

/-! ## Schema/Index Optimizer (`core/database.py` 216-303) -/

/-- A row of the `categories` lookup table. -/
structure CatRow where
  id : ℤ
  category : Option String
  subcategory : Option String

/-- A row of the `manufacturers` lookup table. -/
structure ManRow where
  id : ℤ
  name : Option String

/-- A row of the `components` table.  The three `_name` fields are the
denormalized columns; they carry data only once the corresponding column
name is listed in the store's `componentsColumns`. -/
structure CompRow where
  lcsc : ℤ
  category_id : Option ℤ
  manufacturer_id : Option ℤ
  mfr : Option String
  description : Option String
  package : Option String
  joints : Option ℤ
  basic : Option ℤ
  stock : Option ℤ
  price : Json
  extra : Json
  category_name : Option String := none
  subcategory_name : Option String := none
  manufacturer_name : Option String := none

/-- The persisted store: table contents plus the schema state the
optimizer inspects and mutates (column list of `components`, index
names). -/
structure Store where
  categories : List CatRow
  manufacturers : List ManRow
  components : List CompRow
  componentsColumns : List String
  indexes : List String

/-- The correlated subquery
`SELECT category FROM categories WHERE id = components.category_id`. -/
def lookupCategoryField (f : CatRow → Option String) (cats : List CatRow)
    (cid : Option ℤ) : Option String :=
  match cid with
  | some i =>
    match cats.find? (fun c => c.id = i) with
    | some c => f c
    | none => none
  | none => none

/-- The correlated subquery
`SELECT name FROM manufacturers WHERE id = components.manufacturer_id`. -/
def lookupManufacturerName (mans : List ManRow) (mid : Option ℤ) : Option String :=
  match mid with
  | some i =>
    match mans.find? (fun m => m.id = i) with
    | some m => m.name
    | none => none
  | none => none

/-- `CREATE INDEX IF NOT EXISTS`. -/
def addIndexIfAbsent (idxs : List String) (x : String) : List String :=
  if x ∈ idxs then idxs else idxs ++ [x]

/-- The committed result of the optimizer's happy path: three denormalized
columns appended, backfilled from the lookup tables, and the four indexes
created. -/
def applyOptimization (s : Store) : Store :=
  { s with
    componentsColumns :=
      s.componentsColumns ++ ["category_name", "subcategory_name", "manufacturer_name"]
    components := s.components.map (fun r =>
      { r with
        category_name := lookupCategoryField (·.category) s.categories r.category_id
        subcategory_name := lookupCategoryField (·.subcategory) s.categories r.category_id
        manufacturer_name := lookupManufacturerName s.manufacturers r.manufacturer_id })
    indexes :=
      addIndexIfAbsent (addIndexIfAbsent (addIndexIfAbsent (addIndexIfAbsent
        s.indexes "idx_category_name") "idx_subcategory_name")
        "idx_manufacturer_name") "idx_package" }

/-- Python `str.lower()` over a whole string (ASCII letters and `Ω`). -/
def pyLower (s : String) : String := String.mk (s.data.map pyLowerChar)

/-- Python's `needle in hay` on strings: contiguous substring test. -/
def containsSub (hay needle : List Char) : Bool :=
  hay.tails.any (fun t => needle.isPrefixOf t)

/-- The recovery test on a raised `sqlite3.OperationalError` message:
`any(x in error_msg for x in ["already exists", "duplicate column name",
"readonly database"])` after lowercasing. -/
def conflictMessage (msg : String) : Bool :=
  let m := (pyLower msg).data
  containsSub m "already exists".data || containsSub m "duplicate column name".data
    || containsSub m "readonly database".data

/-- `_optimize_schema`: no-op when the marker column is present; otherwise
run the DDL/backfill steps.  `fault` injects an `OperationalError` the
engine reports during some step (e.g. a concurrent process already added
a column or index, or the store is read-only); absent a fault, a
duplicate column raises the engine's own `duplicate column name` error.
On a raised error the transaction is rolled back, so the store is
unchanged; a recovered message returns normally, any other message is
re-raised. -/
def optimize_schema (s : Store) (fault : Option String) : Except String Store :=
  if "category_name" ∈ s.componentsColumns then Except.ok s
  else
    let raised : Option String :=
      match fault with
      | some msg => some msg
      | none =>
        if "subcategory_name" ∈ s.componentsColumns
            ∨ "manufacturer_name" ∈ s.componentsColumns then
          some "duplicate column name"
        else none
    match raised with
    | some msg => if conflictMessage msg then Except.ok s else Except.error msg
    | none => Except.ok (applyOptimization s)

/-! ## Data models (`core/models.py`) -/

/-- A pricing tier (`qty` from `qFrom`, `price`). -/
structure PriceTier where
  qty : ℤ
  price : ℚ

/-- A normalized attribute value with optional unit
(`AttributeValue.from_dict` on a dict containing a `value` key). -/
structure AttributeValue where
  value : Json
  unit : Option Json

/-- An entry of `Component.attributes`: either an `AttributeValue` or the
raw payload value (strings such as a package type are stored as-is). -/
inductive AttrEntry where
  | av (a : AttributeValue)
  | raw (j : Json)

/-- A hydrated component record.  Fields that merely pass the selected
row value through keep that value's `Option` type (the Python dataclass
accepts `None` at runtime for its string fields). -/
structure Component where
  lcsc : String
  mfr : Option String
  description : Option Json
  manufacturer : Option String
  category : Option String
  subcategory : Option String
  joints : ℤ
  basic : Bool
  stock : ℤ
  price_tiers : List PriceTier
  attributes : List (String × AttrEntry)

/-- `Component.price`: the first tier's unit price, `0.0` with no tiers. -/
def Component.price (c : Component) : ℚ :=
  match c.price_tiers with
  | [] => 0
  | t :: _ => t.price

/-- Python `int(x)` truncates a float toward zero. -/
def truncRat (q : ℚ) : ℤ := if q < 0 then -((-q).floor) else q.floor

/-- Python `float(s)` on the strings occurring in tier data: optional
sign and `[\d.]+` with at most one dot (exponent notation and `inf`/`nan`
do not occur in the catalog). -/
def pyFloatOfString (s : String) : Option ℚ :=
  let cs := pyStrip s.data
  let negative := cs.take 1 = ['-']
  let rest := if cs.take 1 = ['+'] ∨ cs.take 1 = ['-'] then cs.drop 1 else cs
  if rest.length ≥ 1 ∧ rest.all isNumChar then
    (pyFloatOfRun rest).map (fun q => if negative then -q else q)
  else
    none

/-- Python `int(x)` on a JSON scalar (`None` and containers raise). -/
def pyIntOfJson : Json → Option ℤ
  | Json.num q => some (truncRat q)
  | Json.str s => pyIntOfString s
  | Json.bool b => some (if b then 1 else 0)
  | _ => none

/-- Python `float(x)` on a JSON scalar (`None` and containers raise). -/
def pyFloatOfJson : Json → Option ℚ
  | Json.num q => some q
  | Json.str s => pyFloatOfString s
  | Json.bool b => some (if b then 1 else 0)
  | _ => none

/-- `PriceTier.from_dict`: `int(data["qFrom"])` and `float(data["price"])`;
`none` models the `KeyError`/`ValueError`/`TypeError` a malformed tier
raises. -/
def tierFromDict : Json → Option PriceTier
  | Json.obj fields =>
    match fields.lookup "qFrom", fields.lookup "price" with
    | some qf, some pv =>
      match pyIntOfJson qf, pyFloatOfJson pv with
      | some q, some p => some ⟨q, p⟩
      | _, _ => none
    | _, _ => none
  | _ => none

/-- The tier-list comprehension: every element must convert, a
conversion failure aborting the whole row. -/
def parseTiersList : List Json → Option (List PriceTier)
  | [] => some []
  | e :: es =>
    match tierFromDict e, parseTiersList es with
    | some t, some ts => some (t :: ts)
    | _, _ => none

/-- Iterating the parsed price payload: only a JSON array yields tiers
(on any other payload the `for tier in price_data` loop or
`PriceTier.from_dict` raises, which hydration turns into a skip). -/
def parseTiers : Json → Option (List PriceTier)
  | Json.arr elems => parseTiersList elems
  | _ => none

/-- The attribute-dict conversion loop of `Component.from_db_row`.
`none` payload (SQL `NULL`) and the empty string give an empty dict; a
JSON object converts entry-wise (`AttributeValue` for dicts with a
`value` key, raw value otherwise); any other payload raises during
`json.loads`/`.items()` (a bare string from the catalog is not valid
JSON text). -/
def parseAttrs : Option Json → Option (List (String × AttrEntry))
  | none => some []
  | some (Json.str "") => some []
  | some (Json.obj kvs) =>
    some (kvs.map (fun kv =>
      (kv.1,
        match kv.2 with
        | Json.obj fields =>
          if (fields.lookup "value").isSome then
            AttrEntry.av
              ⟨(fields.lookup "value").getD Json.null,
                match fields.lookup "unit" with
                | some Json.null => none
                | some v => some v
                | none => none⟩
          else AttrEntry.raw (Json.obj fields)
        | v => AttrEntry.raw v)))
  | some _ => none

/-! ## Query Engine (`core/search.py`) -/

/-- An attribute-range bound (`{"min": ..., "max": ...}` dict). -/
structure RangeBound where
  min : Option Json := none
  max : Option Json := none

/-- `QueryParams` with the source's defaults. -/
structure QueryParams where
  category : Option String := none
  subcategory : Option String := none
  manufacturer : Option String := none
  description_contains : Option String := none
  basic_only : Bool := false
  in_stock_only : Bool := true
  min_stock : ℤ := 0
  max_price : Option ℚ := none
  package : Option String := none
  attributes : Option (List (String × Json)) := none
  attribute_ranges : Option (List (String × RangeBound)) := none
  offset : ℤ := 0
  limit : ℤ := 20
  include_total_count : Bool := false

/-- Python truthiness of an optional string filter value
(`if params.category:`). -/
def strTruthy : Option String → Bool
  | some s => s ≠ ""
  | none => false

/-- SQLite `LIKE` folds ASCII case only. -/
def asciiLowerChar (c : Char) : Char :=
  if 'A' ≤ c ∧ c ≤ 'Z' then Char.ofNat (c.toNat + 32) else c

/-- SQLite `LIKE` pattern matching: `%` matches any run, `_` any single
character, other characters match ASCII-case-insensitively. -/
def likeMatches : List Char → List Char → Bool
  | [], [] => true
  | [], _ :: _ => false
  | '%' :: ps, [] => likeMatches ps []
  | '%' :: ps, c :: ss => likeMatches ps (c :: ss) || likeMatches ('%' :: ps) ss
  | '_' :: _, [] => false
  | '_' :: ps, _ :: ss => likeMatches ps ss
  | _ :: _, [] => false
  | p :: ps, c :: ss => (asciiLowerChar p == asciiLowerChar c) && likeMatches ps ss
termination_by p t => p.length + t.length

/-- `column LIKE '%value%'` on a nullable text column (`NULL` never
matches). -/
def likeOpt (col : Option String) (pat : String) : Bool :=
  match col with
  | some s => likeMatches ("%" ++ pat ++ "%").data s.data
  | none => false

/-- `json_extract(c.extra, '$.description') LIKE '%value%'`: the catalog
stores descriptions as JSON strings, anything else never matches. -/
def likeOptJson (j : Option Json) (pat : String) : Bool :=
  match j with
  | some (Json.str s) => likeMatches ("%" ++ pat ++ "%").data s.data
  | _ => false

/-- One `json_extract` object step, with a JSON `null` result collapsing
to SQL `NULL`. -/
def jsonExtractField (j : Json) (k : String) : Option Json :=
  match j.getField k with
  | some Json.null => none
  | some v => some v
  | none => none

/-- `json_extract(c.extra, '$.attributes')`. -/
def extraAttributes (r : CompRow) : Option Json := jsonExtractField r.extra "attributes"

/-- `json_extract(c.extra, '$.description')`. -/
def extraDescription (r : CompRow) : Option Json := jsonExtractField r.extra "description"

/-- `json_extract(c.price, '$[0].price')`. -/
def extractFirstTierPrice (price : Json) : Option Json :=
  match price.getIdx0 with
  | some o => jsonExtractField o "price"
  | none => none

/-- SQLite `CAST(text AS REAL)`: optional sign, then the longest numeric
prefix `digits[.digits]`, else `0.0` (exponent notation does not occur
in the catalog prices). -/
def castRealText (s : String) : ℚ :=
  let cs := s.data.dropWhile Char.isWhitespace
  let negative := cs.take 1 = ['-']
  let rest := if cs.take 1 = ['+'] ∨ cs.take 1 = ['-'] then cs.drop 1 else cs
  let intPart := rest.takeWhile Char.isDigit
  let afterInt := rest.dropWhile Char.isDigit
  let fracPart := if afterInt.take 1 = ['.'] then (afterInt.drop 1).takeWhile Char.isDigit else []
  let q : ℚ := (digitsVal intPart : ℚ) + (digitsVal fracPart : ℚ) / (10 : ℚ) ^ fracPart.length
  if negative then -q else q

/-- SQLite `CAST(x AS REAL)` on an extracted JSON value. -/
def castRealOfJson : Json → ℚ
  | Json.num q => q
  | Json.str s => castRealText s
  | Json.bool b => if b then 1 else 0
  | _ => 0

/-- The denormalized `cat.category` of the LEFT JOIN. -/
def catName (db : Store) (r : CompRow) : Option String :=
  lookupCategoryField (·.category) db.categories r.category_id

/-- The `cat.subcategory` of the LEFT JOIN. -/
def subcatName (db : Store) (r : CompRow) : Option String :=
  lookupCategoryField (·.subcategory) db.categories r.category_id

/-- The `man.name` of the LEFT JOIN. -/
def manName (db : Store) (r : CompRow) : Option String :=
  lookupManufacturerName db.manufacturers r.manufacturer_id

/-- The composed WHERE clause of `ComponentSearch.search`: each present
filter is ANDed in; package/attribute/attribute-range filters are
deliberately absent (search.py lines 137-139 note they are not
supported). -/
def rowMatches (db : Store) (params : QueryParams) (r : CompRow) : Bool :=
  (if strTruthy params.category then likeOpt (catName db r) (params.category.getD "")
   else true)
  && (if strTruthy params.subcategory then
        likeOpt (subcatName db r) (params.subcategory.getD "")
      else true)
  && (if strTruthy params.manufacturer then
        likeOpt (manName db r) (params.manufacturer.getD "")
      else true)
  && (if strTruthy params.description_contains then
        likeOpt r.mfr (params.description_contains.getD "")
          || likeOptJson (extraDescription r) (params.description_contains.getD "")
      else true)
  && (if params.basic_only then decide (r.basic = some 1) else true)
  && (if params.in_stock_only then
        match r.stock with
        | some s => decide (0 < s)
        | none => false
      else true)
  && (if decide (0 < params.min_stock) then
        match r.stock with
        | some s => decide (params.min_stock ≤ s)
        | none => false
      else true)
  && (match params.max_price with
      | some mp =>
        match extractFirstTierPrice r.price with
        | some v => decide (castRealOfJson v ≤ mp)
        | none => false
      | none => true)

/-- Sort key for `ORDER BY ... DESC` on a nullable integer column:
larger values first, `NULL` last. -/
def descKeyInt : Option ℤ → Bool ×ₗ ℤ
  | some i => toLex (false, -i)
  | none => toLex (true, 0)

/-- Sort key for `ORDER BY ... ASC` on a nullable rational: `NULL`
first, then ascending. -/
def ascKeyRat : Option ℚ → Bool ×ₗ ℚ
  | some q => toLex (true, q)
  | none => toLex (false, 0)

/-- The full `ORDER BY c.basic DESC, c.stock DESC,
CAST(json_extract(c.price, '$[0].price') AS REAL) ASC` key. -/
def sortKey (r : CompRow) : (Bool ×ₗ ℤ) ×ₗ ((Bool ×ₗ ℤ) ×ₗ (Bool ×ₗ ℚ)) :=
  toLex (descKeyInt r.basic,
    toLex (descKeyInt r.stock,
      ascKeyRat ((extractFirstTierPrice r.price).map castRealOfJson)))

/-- The order the sort runs on. -/
def rowLe (r1 r2 : CompRow) : Prop := sortKey r1 ≤ sortKey r2

instance : DecidableRel rowLe := fun r1 r2 =>
  inferInstanceAs (Decidable (sortKey r1 ≤ sortKey r2))

instance : IsTotal CompRow rowLe := ⟨fun a b => le_total (sortKey a) (sortKey b)⟩

instance : IsTrans CompRow rowLe := ⟨fun _ _ _ h1 h2 => le_trans h1 h2⟩

/-- `limit = max(1, min(params.limit, 100))`. -/
def effectiveLimit (l : ℤ) : ℤ := max 1 (min l 100)

/-- The rows the query returns before hydration: WHERE filter, ORDER BY
(modelled as a stable sort of the table's row order, which is the order
the engine scans an unmodified store in), then OFFSET/LIMIT (a negative
offset behaves as zero, as in SQLite). -/
def pageRows (db : Store) (params : QueryParams) : List CompRow :=
  (((List.insertionSort rowLe (db.components.filter (rowMatches db params))).drop
    params.offset.toNat).take (effectiveLimit params.limit).toNat)

/-- Python `bool()` of a nullable integer column (`bool(None) = False`). -/
def pyBoolInt : Option ℤ → Bool
  | some b => b ≠ 0
  | none => false

/-- `COALESCE(json_extract(c.extra, '$.description'), c.description)`. -/
def selectedDescription (r : CompRow) : Option Json :=
  match extraDescription r with
  | some v => some v
  | none => r.description.map Json.str

/-- `Component.from_db_row` on a selected row: `none` models any raised
exception (malformed price payload, non-dict attributes, `NULL` stock or
joints), which `search` turns into a skipped row. -/
def hydrateRow (db : Store) (r : CompRow) : Option Component :=
  match parseTiers r.price, parseAttrs (extraAttributes r), r.joints, r.stock with
  | some tiers, some attrs, some joints, some stock =>
    some
      { lcsc := lcscExternalId r.lcsc
        mfr := r.mfr
        description := selectedDescription r
        manufacturer := manName db r
        category := catName db r
        subcategory := subcatName db r
        joints := joints
        basic := pyBoolInt r.basic
        stock := stock
        price_tiers := tiers
        attributes := attrs }
  | _, _, _, _ => none

/-- `ComponentSearch.search`: filter, sort, paginate, hydrate, skipping
rows whose hydration raises. -/
def search (db : Store) (params : QueryParams) : List Component :=
  (pageRows db params).filterMap (hydrateRow db)

/-- The component-level sort tuple `(basic, stock, -price)` of the
specification's ordering property. -/
def compKeyNeg (c : Component) : Bool ×ₗ (ℤ ×ₗ ℚ) :=
  toLex (c.basic, toLex (c.stock, -c.price))

/-- Decidable nonnegative-number test on an extracted JSON price. -/
def isNonnegNumB : Json → Bool
  | Json.num q => decide (0 ≤ q)
  | _ => false

/-! ## Concrete sample stores used to evaluate the query engine -/

/-- A query with every filter at its default. -/
def defaultParams : QueryParams := {}

/-- A 10 V component whose only attribute is `Voltage = 10 V`. -/
def sampleRowC1 : CompRow :=
  { lcsc := 1, category_id := none, manufacturer_id := none, mfr := some "X",
    description := none, package := none, joints := some 2, basic := some 0,
    stock := some 5,
    price := Json.arr [Json.obj [("qFrom", Json.num 1), ("price", Json.num 1)]],
    extra := Json.obj [("attributes",
      Json.obj [("Voltage", Json.obj [("value", Json.num 10), ("unit", Json.str "V")])])] }

/-- A store holding only the 10 V component. -/
def sampleStoreC1 : Store := ⟨[], [], [sampleRowC1], ["lcsc"], []⟩

/-- A query asking for `Voltage >= 50V` through the attribute-range
filter. -/
def rangeParamsC1 : QueryParams :=
  { attribute_ranges := some [("Voltage", ⟨some (Json.str "50V"), none⟩)] }

/-- Two rows with identical sort keys whose external ids descend in the
store's row order. -/
def tiedRowHigh : CompRow :=
  { lcsc := 2, category_id := none, manufacturer_id := none, mfr := some "A",
    description := none, package := none, joints := some 2, basic := some 0,
    stock := some 5,
    price := Json.arr [Json.obj [("qFrom", Json.num 1), ("price", Json.num 1)]],
    extra := Json.obj [] }

/-- The tied row with the smaller external id, stored second. -/
def tiedRowLow : CompRow :=
  { tiedRowHigh with lcsc := 1, mfr := some "B" }

/-- A store whose two rows tie on `(basic, stock, price)`. -/
def tieStore : Store := ⟨[], [], [tiedRowHigh, tiedRowLow], ["lcsc"], []⟩

/-- A basic part that sorts first. -/
def rowC6a : CompRow :=
  { lcsc := 10, category_id := none, manufacturer_id := none, mfr := some "A",
    description := none, package := none, joints := some 1, basic := some 1,
    stock := some 7,
    price := Json.arr [Json.obj [("qFrom", Json.num 1), ("price", Json.num 2)]],
    extra := Json.obj [] }

/-- A row whose price payload is the JSON scalar `0`: `json_extract`
yields no first tier (no SQL error) but the hydration loop over the
parsed payload raises, so the row is skipped. -/
def badRowC6 : CompRow :=
  { lcsc := 11, category_id := none, manufacturer_id := none, mfr := some "B",
    description := none, package := none, joints := some 1, basic := some 0,
    stock := some 10, price := Json.num 0, extra := Json.obj [] }

/-- A well-formed non-basic part that sorts last. -/
def rowC6b : CompRow :=
  { lcsc := 12, category_id := none, manufacturer_id := none, mfr := some "C",
    description := none, package := none, joints := some 1, basic := some 0,
    stock := some 5,
    price := Json.arr [Json.obj [("qFrom", Json.num 1), ("price", Json.num 3)]],
    extra := Json.obj [] }

/-- Three matching rows of which exactly the middle one is malformed. -/
def storeC6 : Store := ⟨[], [], [rowC6a, badRowC6, rowC6b], ["lcsc"], []⟩

/-! ## Theorems -/

section Theorems

attribute [local semireducible] Rat.mul Rat.add Rat.sub Rat.inv

/-- Scanning the category tables finds nothing exactly when the key is in
none of the tables. -/
theorem findUnit_eq_none_iff (key : String) :
    findUnit key = none ↔ ∀ cat ∈ UNIT_CATEGORIES, cat.2.lookup key = none := by
  show List.foldr _ _ _ = none ↔ _
  generalize UNIT_CATEGORIES = l
  induction l with
  | nil => simp
  | cons c cs ih =>
    rw [List.foldr_cons]
    cases h : c.2.lookup key with
    | some m =>
      simp only [h]
      constructor
      · intro hc
        exact absurd hc (by simp)
      · intro hall
        have hc := hall c (by simp)
        rw [h] at hc
        exact Option.noConfusion hc
    | none =>
      simp only [h]
      rw [ih]
      constructor
      · intro hall cat hm
        rcases List.mem_cons.mp hm with rfl | hm
        · exact h
        · exact hall cat hm
      · intro hall cat hm
        exact hall cat (List.mem_cons_of_mem _ hm)

/-- C8: `compare_values` returns `none` when either side fails to parse;
compares plain numbers directly when both are unitless; returns `none`
when the units' categories differ; otherwise normalizes both to the base
unit and compares with relative tolerance `1e-10`; in particular
`100nF = 0.1uF`, `50nF < 100nF`, and `100nF` is incomparable to `50V`. -/
theorem C8_compare_values_correct :
    (∀ a b : String, (parse_value a).1 = none ∨ (parse_value b).1 = none →
        compare_values a b = none)
    ∧ (∀ (a b : String) (v1 v2 : ℚ),
        parse_value a = (some v1, some "") → parse_value b = (some v2, some "") →
        compare_values a b = some (if v1 < v2 then -1 else if v1 > v2 then 1 else 0))
    ∧ (∀ (a b : String) (v1 v2 : ℚ) (u1 u2 : String),
        parse_value a = (some v1, some u1) → parse_value b = (some v2, some u2) →
        u1 ≠ "" → u2 ≠ "" → get_unit_category u1 ≠ get_unit_category u2 →
        compare_values a b = none)
    ∧ (∀ (a b : String) (v1 v2 : ℚ) (u1 u2 : String) (n1 n2 : ℚ),
        parse_value a = (some v1, some u1) → parse_value b = (some v2, some u2) →
        u1 ≠ "" → u2 ≠ "" → get_unit_category u1 = get_unit_category u2 →
        normalize_value v1 u1 = some n1 → normalize_value v2 u2 = some n2 →
        compare_values a b =
          some (if (if max |n1| |n2| > 0 then |n1 - n2| / max |n1| |n2| else |n1 - n2|)
                    < 1/10^10 then 0
                else if n1 < n2 then -1 else 1))
    ∧ compare_values "100nF" "0.1uF" = some 0
    ∧ compare_values "50nF" "100nF" = some (-1)
    ∧ compare_values "100nF" "50V" = none := by
  refine ⟨?_, ?_, ?_, ?_, by decide, by decide, by decide⟩
  · intro a b h
    rcases h with h | h
    · simp [compare_values, h]
    · rcases hpa : (parse_value a).1 with _ | v1
      · simp [compare_values, hpa]
      · simp [compare_values, hpa, h]
  · intro a b v1 v2 ha hb
    simp [compare_values, ha, hb, unitTruthy]
  · intro a b v1 v2 u1 u2 ha hb hu1 hu2 hcat
    simp [compare_values, ha, hb, unitTruthy, hu1, hu2, hcat]
  · intro a b v1 v2 u1 u2 n1 n2 ha hb hu1 hu2 hcat hn1 hn2
    have htr1 : unitTruthy (some u1) = true := by simp [unitTruthy, hu1]
    have htr2 : unitTruthy (some u2) = true := by simp [unitTruthy, hu2]
    simp [compare_values, ha, hb, htr1, htr2, hcat, hn1, hn2]

/-- Witness for C8: the unitless clause applied at the inputs 5 and 7. -/
theorem C8_compare_values_correct_witness : compare_values "5" "7" = some (-1) := by
  have h := C8_compare_values_correct.2.1 "5" "7" 5 7 (by decide) (by decide)
  rw [h]
  norm_num

/-- C10: an empty unit string passes the value through unchanged (the
Python falsy-check fires before any table lookup), and `none` is returned
exactly for a non-empty unit string whose normalized key is in none of
the six tables; the empty string itself is a key of no table. -/
theorem C10_normalize_empty_unit :
    (∀ v : ℚ, normalize_value v "" = some v)
    ∧ (∀ cat ∈ UNIT_CATEGORIES, cat.2.lookup "" = none)
    ∧ (∀ (v : ℚ) (u : String),
        normalize_value v u = none ↔
          u ≠ "" ∧ ∀ cat ∈ UNIT_CATEGORIES, cat.2.lookup (normalizeUnitKey u) = none) := by
  refine ⟨fun v => rfl, by decide, ?_⟩
  intro v u
  by_cases hu : u = ""
  · subst hu
    simp [normalize_value]
  · rw [← findUnit_eq_none_iff]
    cases h : findUnit (normalizeUnitKey u) with
    | none => simp [normalize_value, hu, h]
    | some p => simp [normalize_value, hu, h]

/-- Witness for C10: evaluated at value 5 with the unknown unit `zz` and
with the empty unit. -/
theorem C10_normalize_empty_unit_witness :
    normalize_value 5 "" = some 5 ∧ normalize_value 5 "zz" = none := by
  refine ⟨C10_normalize_empty_unit.1 5, ?_⟩
  rw [(C10_normalize_empty_unit.2.2 5 "zz")]
  exact ⟨by decide, by decide⟩

/-- A list all of whose members falsify `p` is unchanged by `dropWhile p`. -/
theorem dropWhile_eq_self_of_all {p : Char → Bool} {cs : List Char}
    (h : ∀ c ∈ cs, p c = false) : cs.dropWhile p = cs := by
  cases cs with
  | nil => rfl
  | cons c r => simp [List.dropWhile_cons, h c (List.mem_cons_self c r)]

/-- Stripping a string with no whitespace is the identity. -/
theorem pyStrip_eq_self {cs : List Char} (h : ∀ c ∈ cs, c.isWhitespace = false) :
    pyStrip cs = cs := by
  unfold pyStrip
  rw [dropWhile_eq_self_of_all h,
    dropWhile_eq_self_of_all (fun c hc => h c (List.mem_reverse.mp hc)),
    List.reverse_reverse]

/-- Every property of the ten digit characters holds of every character
`natDigitsAux` emits. -/
theorem natDigitsAux_all {P : Char → Prop} (hP : ∀ d < 10, P (digitChar d)) :
    ∀ fuel n, n < fuel → ∀ c ∈ natDigitsAux fuel n, P c := by
  intro fuel
  induction fuel with
  | zero => intro n h; exact absurd h (Nat.not_lt_zero n)
  | succ f ih =>
    intro n _ c hc
    by_cases h10 : n < 10
    · rw [natDigitsAux, if_pos h10] at hc
      rcases List.mem_singleton.mp hc with rfl
      exact hP n h10
    · rw [natDigitsAux, if_neg h10] at hc
      rcases List.mem_append.mp hc with hc | hc
      · have hdiv : n / 10 < f := by
          have h1 : n / 10 < n := Nat.div_lt_self (by omega) (by omega)
          omega
        exact ih (n / 10) hdiv c hc
      · rcases List.mem_singleton.mp hc with rfl
        exact hP (n % 10) (Nat.mod_lt n (by omega))

/-- The digits produced by `natDigitsAux` evaluate back to the number. -/
theorem natDigitsAux_val : ∀ fuel n, n < fuel → digitsVal (natDigitsAux fuel n) = n := by
  intro fuel
  induction fuel with
  | zero => intro n h; exact absurd h (Nat.not_lt_zero n)
  | succ f ih =>
    intro n hn
    by_cases h10 : n < 10
    · rw [natDigitsAux, if_pos h10]
      have : (digitChar n).toNat = 48 + n := by interval_cases n <;> decide
      simp [digitsVal, this]
    · rw [natDigitsAux, if_neg h10]
      have hdiv : n / 10 < f := by
        have h1 : n / 10 < n := Nat.div_lt_self (by omega) (by omega)
        omega
      have hmod : (digitChar (n % 10)).toNat = 48 + n % 10 := by
        have : n % 10 < 10 := Nat.mod_lt n (by omega)
        interval_cases h : n % 10 <;> simp [h] <;> decide
      simp only [digitsVal, List.foldl_append, List.foldl_cons, List.foldl_nil]
      have hval := ih (n / 10) hdiv
      simp only [digitsVal] at hval
      rw [hval, hmod]
      omega

/-- C9 counterexample: the external id `C007` is of the form letter
prefix followed by decimal digits, but translating it to the internal
key and back renders `C7`, not `C007`. -/
theorem C9_roundtrip_counterexample :
    (internalKey "C007").map lcscExternalId = some "C7" ∧ "C7" ≠ "C007" := by
  constructor
  · decide
  · decide

/-- C9 (amended): the round-trip is exact on the image of the renderer:
for every nonnegative integer key `n` (the full unbounded range), the
external id `C` followed by the canonical decimal digits of `n`
translates to internal key `n`, and rendering `n` reproduces that id.
Ids with another letter prefix raise `ValueError` in `search_by_lcsc`,
and leading zeros do not survive the round trip. -/
theorem C9_roundtrip_amended :
    ∀ n : ℕ, lcscExternalId (n : ℤ) = "C" ++ pyStrOfNat n ∧
      internalKey (lcscExternalId (n : ℤ)) = some (n : ℤ) := by
  intro n
  have hder : lcscExternalId (n : ℤ) = "C" ++ pyStrOfNat n := by
    unfold lcscExternalId pyStrOfInt
    rw [if_neg (by omega)]
    simp
  refine ⟨hder, ?_⟩
  have hlt : n < n + 1 := Nat.lt_succ_self n
  have hne : natDigitsAux (n + 1) n ≠ [] := by
    rw [natDigitsAux]
    split
    · simp
    · simp
  have hdig : ∀ c ∈ natDigitsAux (n + 1) n, c.isDigit = true :=
    natDigitsAux_all (fun d hd => by interval_cases d <;> decide) (n + 1) n hlt
  have hnws : ∀ c ∈ natDigitsAux (n + 1) n, c.isWhitespace = false :=
    natDigitsAux_all (fun d hd => by interval_cases d <;> decide) (n + 1) n hlt
  have hdata : (lcscExternalId (n : ℤ)).data = 'C' :: natDigitsAux (n + 1) n := by
    rw [hder]
    simp [pyStrOfNat]
  rw [internalKey, hdata]
  obtain ⟨d0, rest, hds⟩ : ∃ d0 rest, natDigitsAux (n + 1) n = d0 :: rest := by
    cases h : natDigitsAux (n + 1) n with
    | nil => exact absurd h hne
    | cons a l => exact ⟨a, l, rfl⟩
  have hd0 : d0.isDigit = true := hdig d0 (by rw [hds]; exact List.mem_cons_self d0 rest)
  rw [if_pos (by rw [hds]; rfl)]
  rw [show ('C' :: natDigitsAux (n + 1) n).drop 1 = natDigitsAux (n + 1) n from rfl]
  rw [pyIntOfString]
  simp only [String.data]
  rw [pyStrip_eq_self hnws]
  have hplus : ¬((natDigitsAux (n + 1) n).take 1 = ['+'] ∨
      (natDigitsAux (n + 1) n).take 1 = ['-']) := by
    rw [hds]
    simp only [List.take_succ_cons, List.take_zero]
    intro hcontra
    rcases hcontra with hcontra | hcontra <;>
      { have : d0 = '+' ∨ d0 = '-' := by
          cases hcontra
          first
          | exact Or.inl rfl
          | exact Or.inr rfl
        rcases this with rfl | rfl <;> exact Bool.noConfusion hd0 }
  rw [if_neg hplus]
  have hminus : ¬(natDigitsAux (n + 1) n).take 1 = ['-'] := fun hc => hplus (Or.inr hc)
  rw [if_pos ⟨by rw [hds]; simp, List.all_eq_true.mpr hdig⟩, if_neg hminus,
    natDigitsAux_val (n + 1) n hlt]

/-- C3: `update_if_needed` characterization.  `needs_update` is false
exactly when the snapshot exists and its age is at most one day; in that
case `update_if_needed` is a no-op returning `False` with zero effects
and an unchanged snapshot; otherwise it performs the download (whose
effect trace begins with the network request for part 01). -/
theorem C3_update_if_needed_iff_stale :
    ∀ (remote : ℕ → Bool) (now : ℚ) (s : CacheState),
      (needs_update now s = false ↔ ∃ m, s.snapshotMtime = some m ∧ now - m ≤ 86400)
      ∧ (needs_update now s = false → update_if_needed remote now s = (false, s, []))
      ∧ (needs_update now s = true →
          update_if_needed remote now s =
            (true, (download_database remote now).1, (download_database remote now).2)
          ∧ Effect.netGet (partUrl 1) ∈ (update_if_needed remote now s).2.2) := by
  intro remote now s
  refine ⟨?_, ?_, ?_⟩
  · cases hm : s.snapshotMtime with
    | none => simp [needs_update, check_database_age, hm]
    | some m =>
      simp only [needs_update, check_database_age, hm, Option.map_some', timedeltaOfDays,
        MAX_AGE_DAYS, decide_eq_false_iff_not, not_lt, Int.cast_one, mul_one]
      constructor
      · intro h
        exact ⟨m, rfl, h⟩
      · rintro ⟨m2, hm2, h2⟩
        cases hm2
        exact h2
  · intro h
    simp [update_if_needed, h]
  · intro h
    have hloop : downloadLoop remote 1 99 =
        Effect.netGet (partUrl 1) :: (if remote 1 then downloadLoop remote 2 98 else []) := by
      rw [downloadLoop]
      norm_num
    refine ⟨by simp [update_if_needed, h], ?_⟩
    simp only [update_if_needed, h, if_pos, download_database]
    exact List.mem_append_left _ (by rw [hloop]; exact List.mem_cons_self _ _)

/-- Witness for C3: a snapshot 50 seconds old is current and triggers no
effects; one 2 days old is stale and reports an update. -/
theorem C3_update_if_needed_iff_stale_witness :
    update_if_needed (fun _ => false) 100 ⟨some 50⟩ = (false, ⟨some 50⟩, [])
    ∧ (update_if_needed (fun _ => false) (2 * 86400) ⟨some 0⟩).1 = true := by
  refine ⟨(C3_update_if_needed_iff_stale (fun _ => false) 100 ⟨some 50⟩).2.1 (by decide), ?_⟩
  rw [((C3_update_if_needed_iff_stale (fun _ => false) (2 * 86400) ⟨some 0⟩).2.2
    (by decide)).1]

/-- C4: the optimizer is idempotent.  With the marker column present it
returns the store unchanged regardless of faults; from a fresh store one
run appends exactly the three denormalized columns and (when absent) the
four indexes, and a second run returns that result unchanged with no
error. -/
theorem C4_optimizer_idempotent :
    ∀ (s : Store) (fault : Option String),
      ("category_name" ∈ s.componentsColumns → optimize_schema s fault = Except.ok s)
      ∧ ("category_name" ∉ s.componentsColumns →
          "subcategory_name" ∉ s.componentsColumns →
          "manufacturer_name" ∉ s.componentsColumns →
          optimize_schema s none = Except.ok (applyOptimization s)
          ∧ optimize_schema (applyOptimization s) none = Except.ok (applyOptimization s)
          ∧ (applyOptimization s).componentsColumns =
              s.componentsColumns ++ ["category_name", "subcategory_name", "manufacturer_name"]
          ∧ ("idx_category_name" ∉ s.indexes → "idx_subcategory_name" ∉ s.indexes →
              "idx_manufacturer_name" ∉ s.indexes → "idx_package" ∉ s.indexes →
              (applyOptimization s).indexes = s.indexes ++
                ["idx_category_name", "idx_subcategory_name", "idx_manufacturer_name",
                 "idx_package"])) := by
  intro s fault
  constructor
  · intro h
    simp [optimize_schema, h]
  · intro h1 h2 h3
    refine ⟨by simp [optimize_schema, h1, h2, h3], ?_, rfl, ?_⟩
    · have hmem : "category_name" ∈ (applyOptimization s).componentsColumns := by
        simp [applyOptimization]
      simp [optimize_schema, hmem]
    · intro i1 i2 i3 i4
      have e1 : addIndexIfAbsent s.indexes "idx_category_name" =
          s.indexes ++ ["idx_category_name"] := by
        simp [addIndexIfAbsent, i1]
      have e2 : addIndexIfAbsent (s.indexes ++ ["idx_category_name"]) "idx_subcategory_name" =
          s.indexes ++ ["idx_category_name", "idx_subcategory_name"] := by
        simp [addIndexIfAbsent, i2]
      have e3 : addIndexIfAbsent (s.indexes ++ ["idx_category_name", "idx_subcategory_name"])
          "idx_manufacturer_name" =
          s.indexes ++ ["idx_category_name", "idx_subcategory_name",
            "idx_manufacturer_name"] := by
        simp [addIndexIfAbsent, i3]
      have e4 : addIndexIfAbsent (s.indexes ++ ["idx_category_name", "idx_subcategory_name",
          "idx_manufacturer_name"]) "idx_package" =
          s.indexes ++ ["idx_category_name", "idx_subcategory_name", "idx_manufacturer_name",
            "idx_package"] := by
        simp [addIndexIfAbsent, i4]
      show addIndexIfAbsent (addIndexIfAbsent (addIndexIfAbsent (addIndexIfAbsent
          s.indexes "idx_category_name") "idx_subcategory_name")
          "idx_manufacturer_name") "idx_package" = _
      rw [e1, e2, e3, e4]

/-- Witness for C4: one run on an empty fresh store adds the three
columns and four indexes; the second run is the identity. -/
theorem C4_optimizer_idempotent_witness :
    optimize_schema ⟨[], [], [], ["lcsc"], []⟩ none =
      Except.ok (applyOptimization ⟨[], [], [], ["lcsc"], []⟩)
    ∧ optimize_schema (applyOptimization ⟨[], [], [], ["lcsc"], []⟩) none =
      Except.ok (applyOptimization ⟨[], [], [], ["lcsc"], []⟩)
    ∧ (applyOptimization ⟨[], [], [], ["lcsc"], []⟩).componentsColumns =
      ["lcsc", "category_name", "subcategory_name", "manufacturer_name"]
    ∧ (applyOptimization ⟨[], [], [], ["lcsc"], []⟩).indexes =
      ["idx_category_name", "idx_subcategory_name", "idx_manufacturer_name", "idx_package"] := by
  have h := (C4_optimizer_idempotent ⟨[], [], [], ["lcsc"], []⟩ none).2
    (by decide) (by decide) (by decide)
  refine ⟨h.1, h.2.1, h.2.2.1, ?_⟩
  have h4 := h.2.2.2 (by decide) (by decide) (by decide) (by decide)
  simpa using h4

/-- C5: during the optimization steps, a raised engine error whose
message indicates an already-existing column/index or a read-only store
is swallowed (the optimizer returns normally with the rolled-back,
unchanged store); any other operational error propagates to the caller. -/
theorem C5_migration_conflict_policy :
    ∀ (s : Store) (msg : String), "category_name" ∉ s.componentsColumns →
      ((conflictMessage msg = true → optimize_schema s (some msg) = Except.ok s)
        ∧ (conflictMessage msg = false → optimize_schema s (some msg) = Except.error msg))
      ∧ conflictMessage "duplicate column name: subcategory_name" = true
      ∧ conflictMessage "index idx_package already exists" = true
      ∧ conflictMessage "attempt to write a readonly database" = true
      ∧ conflictMessage "no such table: components" = false
      ∧ conflictMessage "database is locked" = false := by
  intro s msg h
  refine ⟨⟨?_, ?_⟩, by decide, by decide, by decide, by decide, by decide⟩
  · intro hc
    simp [optimize_schema, h, hc]
  · intro hc
    simp [optimize_schema, h, hc]

/-- Witness for C5: a read-only error is recovered on a concrete fresh
store, a locked-database error propagates. -/
theorem C5_migration_conflict_policy_witness :
    optimize_schema ⟨[], [], [], ["lcsc"], []⟩ (some "attempt to write a readonly database") =
      Except.ok ⟨[], [], [], ["lcsc"], []⟩
    ∧ optimize_schema ⟨[], [], [], ["lcsc"], []⟩ (some "database is locked") =
      Except.error "database is locked" := by
  constructor
  · exact ((C5_migration_conflict_policy ⟨[], [], [], ["lcsc"], []⟩
      "attempt to write a readonly database" (by decide)).1).1 (by decide)
  · exact ((C5_migration_conflict_policy ⟨[], [], [], ["lcsc"], []⟩
      "database is locked" (by decide)).1).2 (by decide)

/-- C7: the effective page size is the requested limit clamped to
`[1, 100]`: nonpositive requests become 1, a request of 500 becomes 100,
in-range requests pass through, and no search page exceeds the clamped
limit. -/
theorem C7_limit_clamping :
    (∀ l : ℤ, l ≤ 0 → effectiveLimit l = 1)
    ∧ effectiveLimit 500 = 100
    ∧ (∀ l : ℤ, 1 ≤ effectiveLimit l ∧ effectiveLimit l ≤ 100)
    ∧ (∀ l : ℤ, 1 ≤ l → l ≤ 100 → effectiveLimit l = l)
    ∧ (∀ (db : Store) (params : QueryParams),
        (search db params).length ≤ (effectiveLimit params.limit).toNat) := by
  refine ⟨?_, by decide, ?_, ?_, ?_⟩
  · intro l h
    simp only [effectiveLimit, max_def, min_def]
    split_ifs <;> omega
  · intro l
    simp only [effectiveLimit, max_def, min_def]
    constructor <;> (split_ifs <;> omega)
  · intro l h1 h2
    simp only [effectiveLimit, max_def, min_def]
    split_ifs <;> omega
  · intro db params
    calc (search db params).length ≤ (pageRows db params).length :=
        List.length_filterMap_le _ _
      _ ≤ (effectiveLimit params.limit).toNat := List.length_take_le _ _

/-- Witness for C7: a request of −5 is clamped to 1 and one of 500 to
100. -/
theorem C7_limit_clamping_witness :
    effectiveLimit (-5) = 1 ∧ effectiveLimit 500 = 100 :=
  ⟨C7_limit_clamping.1 (-5) (by decide), C7_limit_clamping.2.1⟩

/-- C1 counterexample: a query carrying the attribute-range filter
`Voltage >= 50V` returns the only stored component even though its
`Voltage` attribute is 10 V, which is below the bound under unit
normalization (`compare_values "10V" "50V" = -1`); the row is returned,
not excluded. -/
theorem C1_attr_range_counterexample :
    rangeParamsC1.attribute_ranges = some [("Voltage", ⟨some (Json.str "50V"), none⟩)]
    ∧ (search sampleStoreC1 rangeParamsC1).map Component.lcsc = ["C1"]
    ∧ (search sampleStoreC1 rangeParamsC1).map Component.attributes =
        [[("Voltage", AttrEntry.av ⟨Json.num 10, some (Json.str "V")⟩)]]
    ∧ compare_values "10V" "50V" = some (-1) :=
  ⟨rfl, rfl, rfl, by decide⟩

/-- C1 (amended): the attribute and attribute-range filters of
`QueryParams` are accepted but never applied — `search` returns exactly
the same records with them as without them, and raises no error (the
WHERE clause simply never reads them; search.py lines 137-139). -/
theorem C1_attribute_filters_ignored :
    ∀ (db : Store) (params : QueryParams),
      search db params =
        search db { params with attributes := none, attribute_ranges := none } :=
  fun _ _ => rfl

/-- A `filterMap` over rows that all hydrate keeps every row. -/
theorem length_filterMap_of_all_isSome {α β : Type} (f : α → Option β) :
    ∀ l : List α, (∀ r ∈ l, (f r).isSome) → (l.filterMap f).length = l.length := by
  intro l h
  induction l with
  | nil => rfl
  | cons x xs ih =>
    cases hf : f x with
    | none =>
      have := h x (List.mem_cons_self x xs)
      rw [hf] at this
      exact absurd this (by simp)
    | some b =>
      simp only [List.filterMap_cons, hf, List.length_cons]
      rw [ih (fun r hr => h r (List.mem_cons_of_mem _ hr))]

/-- C6: when exactly one row of the selected page fails hydration,
`search` returns the hydrations of all the other rows — `N - 1` records
out of `N`, with no exception. -/
theorem C6_malformed_row_skipped :
    ∀ (db : Store) (params : QueryParams) (l1 l2 : List CompRow) (bad : CompRow),
      pageRows db params = l1 ++ bad :: l2 →
      hydrateRow db bad = none →
      (∀ r ∈ l1, (hydrateRow db r).isSome) →
      (∀ r ∈ l2, (hydrateRow db r).isSome) →
      (search db params).length + 1 = (pageRows db params).length
      ∧ search db params =
          l1.filterMap (hydrateRow db) ++ l2.filterMap (hydrateRow db) := by
  intro db params l1 l2 bad hpage hbad h1 h2
  have hs : search db params =
      l1.filterMap (hydrateRow db) ++ l2.filterMap (hydrateRow db) := by
    show (pageRows db params).filterMap (hydrateRow db) = _
    rw [hpage]
    simp [List.filterMap_append, List.filterMap_cons, hbad]
  refine ⟨?_, hs⟩
  rw [hs, hpage]
  simp only [List.length_append, List.length_cons,
    length_filterMap_of_all_isSome _ _ h1, length_filterMap_of_all_isSome _ _ h2]
  omega

/-- Witness for C6: of the three matching rows of `storeC6` the middle
one is malformed, and search returns two records. -/
theorem C6_malformed_row_skipped_witness :
    (search storeC6 defaultParams).length + 1 = (pageRows storeC6 defaultParams).length
    ∧ (pageRows storeC6 defaultParams).length = 3 :=
  ⟨(C6_malformed_row_skipped storeC6 defaultParams [rowC6a] [rowC6b] badRowC6
      rfl rfl (by decide) (by decide)).1, rfl⟩

/-- Hydration success determines the component's basic flag, stock and
tier list from the row. -/
theorem hydrate_fields {db : Store} {r : CompRow} {c : Component}
    (h : hydrateRow db r = some c) :
    ∃ tiers s, parseTiers r.price = some tiers ∧ r.stock = some s
      ∧ c.stock = s ∧ c.price_tiers = tiers ∧ c.basic = pyBoolInt r.basic := by
  rw [hydrateRow] at h
  cases ht : parseTiers r.price with
  | none => rw [ht] at h; exact absurd h (by simp)
  | some tiers =>
    cases ha : parseAttrs (extraAttributes r) with
    | none => rw [ht, ha] at h; exact absurd h (by simp)
    | some attrs =>
      cases hj : r.joints with
      | none => rw [ht, ha, hj] at h; exact absurd h (by simp)
      | some joints =>
        cases hs : r.stock with
        | none => rw [ht, ha, hj, hs] at h; exact absurd h (by simp)
        | some s =>
          rw [ht, ha, hj, hs] at h
          injection h with h
          exact ⟨tiers, s, rfl, rfl, by rw [← h], by rw [← h], by rw [← h]⟩

/-- On a row whose first-tier price (if extractable) is a nonnegative
JSON number, successful tier parsing ties the SQL sort key to the parsed
first tier: both are absent (empty tier array), or both carry the same
nonnegative rational. -/
theorem price_link {r : CompRow} {tiers : List PriceTier}
    (htiers : parseTiers r.price = some tiers)
    (hp : Option.all isNonnegNumB (extractFirstTierPrice r.price) = true) :
    ((extractFirstTierPrice r.price).map castRealOfJson = none ∧ tiers = [])
    ∨ ∃ q t ts, (extractFirstTierPrice r.price).map castRealOfJson = some q ∧ 0 ≤ q
        ∧ tiers = t :: ts ∧ t.price = q := by
  cases hpr : r.price with
  | arr elems =>
    rw [hpr] at htiers hp
    cases elems with
    | nil =>
      left
      refine ⟨rfl, ?_⟩
      rw [show parseTiers (Json.arr []) = some [] from rfl] at htiers
      exact (Option.some.inj htiers).symm
    | cons e es =>
      right
      rw [show parseTiers (Json.arr (e :: es)) = parseTiersList (e :: es) from rfl,
        parseTiersList] at htiers
      cases hte : tierFromDict e with
      | none => rw [hte] at htiers; exact absurd htiers (by simp)
      | some t =>
        cases htes : parseTiersList es with
        | none => rw [hte, htes] at htiers; exact absurd htiers (by simp)
        | some ts =>
          rw [hte, htes] at htiers
          have htl : tiers = t :: ts := (Option.some.inj htiers).symm
          cases e with
          | obj fields =>
            rw [tierFromDict] at hte
            cases hqf : fields.lookup "qFrom" with
            | none => rw [hqf] at hte; exact absurd hte (by simp)
            | some qf =>
              cases hpv : fields.lookup "price" with
              | none => rw [hqf, hpv] at hte; exact absurd hte (by simp)
              | some pv =>
                rw [hqf, hpv] at hte
                have hte2 : (match pyIntOfJson qf, pyFloatOfJson pv with
                    | some q, some p => some (⟨q, p⟩ : PriceTier)
                    | _, _ => none) = some t := hte
                cases hqi : pyIntOfJson qf with
                | none => rw [hqi] at hte2; exact absurd hte2 (by simp)
                | some q =>
                  cases hpf : pyFloatOfJson pv with
                  | none => rw [hqi, hpf] at hte2; exact absurd hte2 (by simp)
                  | some p =>
                    rw [hqi, hpf] at hte2
                    have htp : t = ⟨q, p⟩ := (Option.some.inj hte2).symm
                    have hex : extractFirstTierPrice (Json.arr (Json.obj fields :: es)) =
                        jsonExtractField (Json.obj fields) "price" := rfl
                    rw [hex] at hp ⊢
                    cases pv with
                    | null => exact absurd hpf (by simp [pyFloatOfJson])
                    | num qv =>
                      have hex2 : jsonExtractField (Json.obj fields) "price" =
                          some (Json.num qv) := by
                        simp [jsonExtractField, Json.getField, hpv]
                      rw [hex2] at hp ⊢
                      have hqv : (0 : ℚ) ≤ qv := by
                        simpa [isNonnegNumB] using hp
                      have hpq : p = qv := by
                        rw [show pyFloatOfJson (Json.num qv) = some qv from rfl] at hpf
                        exact (Option.some.inj hpf).symm
                      exact ⟨qv, t, ts, rfl, hqv, htl, by rw [htp, hpq]⟩
                    | str sv =>
                      have hex2 : jsonExtractField (Json.obj fields) "price" =
                          some (Json.str sv) := by
                        simp [jsonExtractField, Json.getField, hpv]
                      rw [hex2] at hp
                      exact absurd hp (by simp [isNonnegNumB])
                    | bool bv =>
                      have hex2 : jsonExtractField (Json.obj fields) "price" =
                          some (Json.bool bv) := by
                        simp [jsonExtractField, Json.getField, hpv]
                      rw [hex2] at hp
                      exact absurd hp (by simp [isNonnegNumB])
                    | arr xs =>
                      have hex2 : jsonExtractField (Json.obj fields) "price" =
                          some (Json.arr xs) := by
                        simp [jsonExtractField, Json.getField, hpv]
                      rw [hex2] at hp
                      exact absurd hp (by simp [isNonnegNumB])
                    | obj kvs =>
                      have hex2 : jsonExtractField (Json.obj fields) "price" =
                          some (Json.obj kvs) := by
                        simp [jsonExtractField, Json.getField, hpv]
                      rw [hex2] at hp
                      exact absurd hp (by simp [isNonnegNumB])
          | null => exact absurd hte (by simp [tierFromDict])
          | bool b => exact absurd hte (by simp [tierFromDict])
          | num q => exact absurd hte (by simp [tierFromDict])
          | str s => exact absurd hte (by simp [tierFromDict])
          | arr xs => exact absurd hte (by simp [tierFromDict])
  | null => rw [hpr] at htiers; exact absurd htiers (by simp [parseTiers])
  | bool b => rw [hpr] at htiers; exact absurd htiers (by simp [parseTiers])
  | num q => rw [hpr] at htiers; exact absurd htiers (by simp [parseTiers])
  | str s => rw [hpr] at htiers; exact absurd htiers (by simp [parseTiers])
  | obj kvs => rw [hpr] at htiers; exact absurd htiers (by simp [parseTiers])

/-- Transfer of the ascending-with-NULL-first price key to the hydrated
prices (NULL hydrates to price 0, which nonnegativity keeps below every
present price). -/
theorem price_le_of_ascKey {E1 E2 : Option ℚ} {p1 p2 : ℚ}
    (h1 : (E1 = none ∧ p1 = 0) ∨ ∃ q, E1 = some q ∧ 0 ≤ q ∧ p1 = q)
    (h2 : (E2 = none ∧ p2 = 0) ∨ ∃ q, E2 = some q ∧ 0 ≤ q ∧ p2 = q)
    (hle : ascKeyRat E1 ≤ ascKeyRat E2) : p1 ≤ p2 := by
  rcases h1 with ⟨hE1, hp1⟩ | ⟨q1, hE1, hq1, hp1⟩
  · rcases h2 with ⟨hE2, hp2⟩ | ⟨q2, hE2, hq2, hp2⟩
    · rw [hp1, hp2]
    · rw [hp1, hp2]
      exact hq2
  · rcases h2 with ⟨hE2, hp2⟩ | ⟨q2, hE2, hq2, hp2⟩
    · exfalso
      rw [hE1, hE2] at hle
      rw [show ascKeyRat (some q1) = toLex (true, q1) from rfl,
        show ascKeyRat none = toLex (false, 0) from rfl, Prod.Lex.le_iff] at hle
      rcases hle with h | ⟨h, _⟩
      · exact absurd h (by simp [Bool.lt_iff])
      · exact absurd h (by simp)
    · rw [hp1, hp2]
      rw [hE1, hE2] at hle
      rw [show ascKeyRat (some q1) = toLex (true, q1) from rfl,
        show ascKeyRat (some q2) = toLex (true, q2) from rfl, Prod.Lex.le_iff] at hle
      rcases hle with h | ⟨_, h⟩
      · exact absurd h (lt_irrefl true)
      · exact h

/-- Transfer of the stock/price part of the SQL sort key to the hydrated
component tuple. -/
theorem stock_price_transfer {s1 s2 : ℤ} {E1 E2 : Option ℚ} {p1 p2 : ℚ}
    (hcp1 : (E1 = none ∧ p1 = 0) ∨ ∃ q, E1 = some q ∧ 0 ≤ q ∧ p1 = q)
    (hcp2 : (E2 = none ∧ p2 = 0) ∨ ∃ q, E2 = some q ∧ 0 ≤ q ∧ p2 = q)
    (hle : (toLex (toLex (false, -s1), ascKeyRat E1) :
        (Bool ×ₗ ℤ) ×ₗ (Bool ×ₗ ℚ)) ≤ toLex (toLex (false, -s2), ascKeyRat E2)) :
    (toLex (s2, -p2) : ℤ ×ₗ ℚ) ≤ toLex (s1, -p1) := by
  rw [Prod.Lex.le_iff] at hle
  rw [Prod.Lex.le_iff]
  rcases hle with hlt | ⟨heq, hErel⟩
  · left
    rw [Prod.Lex.lt_iff] at hlt
    rcases hlt with hb | ⟨_, hv⟩
    · exact absurd hb (lt_irrefl false)
    · show s2 < s1
      omega
  · right
    have hs : (false, -s1) = (false, -s2) := toLex_inj.mp heq
    have hs2 : s1 = s2 := by
      have := (Prod.mk.injEq _ _ _ _).mp hs
      omega
    refine ⟨hs2.symm, ?_⟩
    have := price_le_of_ascKey hcp1 hcp2 hErel
    show -p2 ≤ -p1
    linarith

/-- The SQL row order implies the claim's component-tuple order for rows
with 0/1 basic flags and nonnegative first-tier prices. -/
theorem key_transfer {db : Store} {r1 r2 : CompRow} {c1 c2 : Component}
    (hb1 : r1.basic = some 0 ∨ r1.basic = some 1)
    (hb2 : r2.basic = some 0 ∨ r2.basic = some 1)
    (hp1 : Option.all isNonnegNumB (extractFirstTierPrice r1.price) = true)
    (hp2 : Option.all isNonnegNumB (extractFirstTierPrice r2.price) = true)
    (hle : rowLe r1 r2)
    (h1 : hydrateRow db r1 = some c1) (h2 : hydrateRow db r2 = some c2) :
    compKeyNeg c2 ≤ compKeyNeg c1 := by
  obtain ⟨t1, s1, ht1, hs1, hcs1, hct1, hcb1⟩ := hydrate_fields h1
  obtain ⟨t2, s2, ht2, hs2, hcs2, hct2, hcb2⟩ := hydrate_fields h2
  have hcp1 : ((extractFirstTierPrice r1.price).map castRealOfJson = none ∧ c1.price = 0)
      ∨ ∃ q, (extractFirstTierPrice r1.price).map castRealOfJson = some q ∧ 0 ≤ q
          ∧ c1.price = q := by
    rcases price_link ht1 hp1 with ⟨hE, htn⟩ | ⟨q, t, ts, hE, hq, htc, htp⟩
    · exact Or.inl ⟨hE, by simp [Component.price, hct1, htn]⟩
    · exact Or.inr ⟨q, hE, hq, by simp [Component.price, hct1, htc, htp]⟩
  have hcp2 : ((extractFirstTierPrice r2.price).map castRealOfJson = none ∧ c2.price = 0)
      ∨ ∃ q, (extractFirstTierPrice r2.price).map castRealOfJson = some q ∧ 0 ≤ q
          ∧ c2.price = q := by
    rcases price_link ht2 hp2 with ⟨hE, htn⟩ | ⟨q, t, ts, hE, hq, htc, htp⟩
    · exact Or.inl ⟨hE, by simp [Component.price, hct2, htn]⟩
    · exact Or.inr ⟨q, hE, hq, by simp [Component.price, hct2, htc, htp]⟩
  have hle' : sortKey r1 ≤ sortKey r2 := hle
  rw [sortKey, sortKey, hs1, hs2] at hle'
  rw [compKeyNeg, compKeyNeg, hcs1, hcs2, hcb1, hcb2]
  rcases hb1 with hb1 | hb1 <;> rcases hb2 with hb2 | hb2 <;>
    rw [hb1] at hle' ⊢ <;> rw [hb2] at hle' ⊢
  · -- both basic 0: equal boolean flag, compare stock/price
    rw [show descKeyInt (some 0) = toLex (false, 0) from by simp [descKeyInt],
      Prod.Lex.le_iff] at hle'
    rw [show pyBoolInt (some 0) = false from rfl, Prod.Lex.le_iff]
    rcases hle' with hlt | ⟨_, htail⟩
    · exact absurd hlt (lt_irrefl _)
    · exact Or.inr ⟨rfl, stock_price_transfer hcp1 hcp2 htail⟩
  · -- r1 basic 0, r2 basic 1: contradicts the row order
    exfalso
    rw [show descKeyInt (some 0) = toLex (false, 0) from by simp [descKeyInt],
      show descKeyInt (some 1) = toLex (false, -1) from by simp [descKeyInt],
      Prod.Lex.le_iff] at hle'
    rcases hle' with hlt | ⟨heq, _⟩
    · rw [Prod.Lex.lt_iff] at hlt
      rcases hlt with hb | ⟨_, hv⟩
      · exact absurd hb (lt_irrefl false)
      · omega
    · have := (Prod.mk.injEq _ _ _ _).mp (toLex_inj.mp heq)
      omega
  · -- r1 basic 1, r2 basic 0: the hydrated flags already order strictly
    rw [show pyBoolInt (some 0) = false from rfl, show pyBoolInt (some 1) = true from rfl,
      Prod.Lex.le_iff]
    exact Or.inl (by simp [Bool.lt_iff])
  · -- both basic 1
    rw [show descKeyInt (some 1) = toLex (false, -1) from by simp [descKeyInt],
      Prod.Lex.le_iff] at hle'
    rw [show pyBoolInt (some 1) = true from rfl, Prod.Lex.le_iff]
    rcases hle' with hlt | ⟨_, htail⟩
    · exact absurd hlt (lt_irrefl _)
    · exact Or.inr ⟨rfl, stock_price_transfer hcp1 hcp2 htail⟩

/-- C2 counterexample: on a store whose two rows tie on
`(basic, stock, price)` but are stored with external ids descending,
search returns the tie in store order `C2, C1` — not in external id
ascending order, so no id tie-break exists. -/
theorem C2_tiebreak_counterexample :
    (search tieStore defaultParams).map Component.lcsc = ["C2", "C1"]
    ∧ (search tieStore defaultParams).map (fun c => (c.basic, c.stock, c.price)) =
        [(false, 5, 1), (false, 5, 1)] :=
  ⟨rfl, rfl⟩

/-- C2 (amended): consecutive records of any search page are ordered by
`(basic, stock, -price)` lexicographically (given the store invariants
that the basic flag is 0/1 and first-tier prices are nonnegative
numbers); the order is deterministic for a fixed store, but ties are
left in the engine's row order rather than broken by external id. -/
theorem C2_sort_order :
    ∀ (db : Store) (params : QueryParams),
      (∀ r ∈ db.components, r.basic = some 0 ∨ r.basic = some 1) →
      (∀ r ∈ db.components, Option.all isNonnegNumB (extractFirstTierPrice r.price) = true) →
      List.Chain' (fun a b => compKeyNeg b ≤ compKeyNeg a) (search db params) := by
  intro db params hb hp
  have hsorted : List.Pairwise rowLe
      (List.insertionSort rowLe (db.components.filter (rowMatches db params))) :=
    List.sorted_insertionSort rowLe _
  have hmem : ∀ r ∈ List.insertionSort rowLe (db.components.filter (rowMatches db params)),
      r ∈ db.components :=
    fun r hr => List.mem_of_mem_filter (((List.perm_insertionSort rowLe _).mem_iff).mp hr)
  have hpair : List.Pairwise
      (fun a b => a ∈ db.components ∧ b ∈ db.components ∧ rowLe a b)
      (List.insertionSort rowLe (db.components.filter (rowMatches db params))) :=
    (List.Pairwise.and_mem.mp hsorted).imp
      (fun h => ⟨hmem _ h.1, hmem _ h.2.1, h.2.2⟩)
  have hsub : (pageRows db params).Sublist
      (List.insertionSort rowLe (db.components.filter (rowMatches db params))) :=
    (List.take_sublist _ _).trans (List.drop_sublist _ _)
  have hpage := List.Pairwise.sublist hsub hpair
  apply List.Pairwise.chain'
  show List.Pairwise _ ((pageRows db params).filterMap (hydrateRow db))
  rw [List.pairwise_filterMap]
  exact hpage.imp
    (fun h c1 hc1 c2 hc2 =>
      key_transfer (hb _ h.1) (hb _ h.2.1) (hp _ h.1) (hp _ h.2.1) h.2.2
        (Option.mem_def.mp hc1) (Option.mem_def.mp hc2))

/-- Witness for C2: the amended ordering theorem applied to the concrete
tied store. -/
theorem C2_sort_order_witness :
    List.Chain' (fun a b => compKeyNeg b ≤ compKeyNeg a) (search tieStore defaultParams) :=
  C2_sort_order tieStore defaultParams (by decide) (by decide)

end Theorems

end JlcHasIt
